import Mathlib

/-!
Verification development for the RMSP lookup pipeline
(`rmsp_parser.py`, `excel_rmsp_processor.py`, `rmsp_no_chrome.py`,
`rmsp_playwright.py`).

The Python code is shallowly embedded: pure string/HTML processing becomes
total Lean functions over a `Node` tree that models the parsed (BeautifulSoup)
document; the mutable result dictionary of `parse_results` becomes an
association list updated in place; network/browser effects are abstracted as
an oracle argument plus an explicit event trace.

Modelling conventions, noted once here:
* Python `str` is modelled by Lean `String` / `List Char`; the `\d` regex
  class and `str.strip`/`str.lower` are modelled over the character ranges
  the program actually manipulates (ASCII digits, ASCII whitespace, Latin
  and Cyrillic letters).
* Python `re` semantics that matter are modelled exactly: `re.match` with
  `^...$` also accepts a single trailing newline; `re.search` returns the
  match at the leftmost feasible start position; quantifier backtracking for
  the concrete patterns of the source is resolved as the regexes resolve it.
-/

namespace RMSP

/-! ### Basic character and string helpers -/

/-- ASCII decimal digit, modelling the `\d` regex class restricted to the
ASCII range handled by the program. -/
def isD (c : Char) : Bool := '0' ≤ c && c ≤ '9'

/-- Whitespace as stripped by Python `str.strip()` / matched by `\s`
(ASCII portion). -/
def isWS (c : Char) : Bool :=
  c == ' ' || c == '\t' || c == '\n' || c == '\r' || c == '\x0b' || c == '\x0c'

/-- Lowercasing as done by Python `str.lower()`, restricted to the ASCII and
Cyrillic letters occurring in the program's string constants. -/
def charLower (c : Char) : Char :=
  if ('A' ≤ c && c ≤ 'Z') || ('А' ≤ c && c ≤ 'Я') then Char.ofNat (c.toNat + 0x20)
  else if c = 'Ё' then 'ё'
  else c

/-- `str.lower()` over a whole string. -/
def pyLower (s : String) : String := ⟨s.data.map charLower⟩

/-- `str.strip()`: drop whitespace from both ends (character-list core). -/
def pyStripC (cs : List Char) : List Char :=
  ((cs.dropWhile (isWS ·)).reverse.dropWhile (isWS ·)).reverse

/-- `str.strip()` on `String`. -/
def pyStrip (s : String) : String := ⟨pyStripC s.data⟩

/-- Does `hay` start with `pat`? -/
def leadsWith : List Char → List Char → Bool
  | [], _ => true
  | _ :: _, [] => false
  | p :: ps, c :: cs => p == c && leadsWith ps cs

/-- If `cs` starts with `lbl`, return the remainder after `lbl`. -/
def dropLabel : List Char → List Char → Option (List Char)
  | [], cs => some cs
  | _ :: _, [] => none
  | p :: ps, c :: cs => if p == c then dropLabel ps cs else none

/-- Substring test over character lists (`pat in hay` in Python). -/
def hasSubC (pat : List Char) : List Char → Bool
  | [] => leadsWith pat []
  | c :: t => leadsWith pat (c :: t) || hasSubC pat t

/-- Substring test on `String`: Python's `pat in hay`. -/
def containsSub (hay pat : String) : Bool := hasSubC pat.data hay.data

/-- Numeric value of a digit string (`int(...)` on an all-digit string). -/
def valOfDigits (cs : List Char) : Nat :=
  cs.foldl (fun a c => 10 * a + (c.toNat - 48)) 0

/-! ### Date model (`excel_rmsp_processor.ExcelRMSPProcessor`)

`datetime.date` is modelled as a year/month/day triple of naturals; the
constructor validity check of `datetime` (which raises `ValueError` inside
`strptime`, caught by `parse_date`) is the predicate `okDate`. -/

structure PDate where
  year : Nat
  month : Nat
  day : Nat
deriving DecidableEq

/-- Leap-year rule of the Gregorian calendar, as used by `datetime`. -/
def isLeap (y : Nat) : Bool := (y % 4 == 0 && y % 100 != 0) || y % 400 == 0

/-- Days in a month per `datetime`. -/
def daysInMonth (y m : Nat) : Nat :=
  if m = 2 then (if isLeap y then 29 else 28)
  else if m = 4 || m = 6 || m = 9 || m = 11 then 30
  else 31

/-- The `datetime.date(year, month, day)` constructor accepts exactly these
triples (MINYEAR = 1, MAXYEAR = 9999). -/
def okDate (y m d : Nat) : Bool :=
  1 ≤ y && y ≤ 9999 && 1 ≤ m && m ≤ 12 && 1 ≤ d && d ≤ daysInMonth y m

/-- `date < date` comparison of `datetime`: lexicographic on (y, m, d). -/
def pdLt (a b : PDate) : Bool :=
  a.year < b.year ||
    (a.year == b.year && (a.month < b.month ||
      (a.month == b.month && a.day < b.day)))

/-- Field matcher for `%d` in `strptime`: one or two ASCII digits with value
1..31 (regex `3[01]|[12]\d|0[1-9]|[1-9]`). -/
def fieldD (cs : List Char) : Option Nat :=
  if cs.all (isD ·) && (cs.length == 1 || cs.length == 2) &&
      1 ≤ valOfDigits cs && valOfDigits cs ≤ 31 then some (valOfDigits cs) else none

/-- Field matcher for `%m`: one or two digits with value 1..12. -/
def fieldM (cs : List Char) : Option Nat :=
  if cs.all (isD ·) && (cs.length == 1 || cs.length == 2) &&
      1 ≤ valOfDigits cs && valOfDigits cs ≤ 12 then some (valOfDigits cs) else none

/-- Field matcher for `%Y`: exactly four digits. -/
def fieldY4 (cs : List Char) : Option Nat :=
  if cs.all (isD ·) && cs.length == 4 then some (valOfDigits cs) else none

/-- Field matcher for `%y`: exactly two digits; 00-68 map to 2000-2068 and
69-99 to 1969-1999, as in `_strptime`. -/
def fieldY2 (cs : List Char) : Option Nat :=
  if cs.all (isD ·) && cs.length == 2 then
    some (if valOfDigits cs ≤ 68 then 2000 + valOfDigits cs else 1900 + valOfDigits cs)
  else none

/-- Split a character list at every occurrence of `sep` (the fields of the
date formats are digit-only, so matching the three-field format regex is
equivalent to this split producing exactly three valid fields). -/
def splitC (sep : Char) : List Char → List (List Char)
  | [] => [[]]
  | c :: cs =>
    if c == sep then [] :: splitC sep cs
    else match splitC sep cs with
      | [] => [[c]]
      | g :: gs => (c :: g) :: gs

/-- One `strptime` attempt with a day/month/year format (`%d<sep>%m<sep>%Y`
or the `%y` variant when `y2` is set). -/
def parseDMYc (sep : Char) (y2 : Bool) (cs : List Char) : Option PDate :=
  match splitC sep cs with
  | [a, b, c] =>
    match fieldD a, fieldM b, (if y2 then fieldY2 c else fieldY4 c) with
    | some d, some m, some y => if okDate y m d then some ⟨y, m, d⟩ else none
    | _, _, _ => none
  | _ => none

/-- One `strptime` attempt with the `%Y-%m-%d` format. -/
def parseYMDc (cs : List Char) : Option PDate :=
  match splitC '-' cs with
  | [a, b, c] =>
    match fieldY4 a, fieldM b, fieldD c with
    | some y, some m, some d => if okDate y m d then some ⟨y, m, d⟩ else none
    | _, _, _ => none
  | _ => none

/-- The fixed format list of `ExcelRMSPProcessor.parse_date`, tried in
declared order, first success wins:
`%d.%m.%Y`, `%d/%m/%Y`, `%Y-%m-%d`, `%d-%m-%Y`, `%d.%m.%y`, `%d/%m/%y`. -/
def tryFormatsC (cs : List Char) : Option PDate :=
  (parseDMYc '.' false cs).orElse fun _ =>
  (parseDMYc '/' false cs).orElse fun _ =>
  (parseYMDc cs).orElse fun _ =>
  (parseDMYc '-' false cs).orElse fun _ =>
  (parseDMYc '.' true cs).orElse fun _ =>
  parseDMYc '/' true cs

/-- A raw spreadsheet cell value as seen by `parse_date`: `na` models
`None`/`NaN` (and other non-string, non-date objects, which also parse to
`None`), `dt` models a value already of type `datetime`/`date`, `str` a
text value. -/
inductive DateValue where
  | na : DateValue
  | dt : PDate → DateValue
  | str : String → DateValue
deriving DecidableEq

/-- `ExcelRMSPProcessor.parse_date`: `None` for NaN/empty, pass-through for
structured dates, otherwise the stripped text against the format list. -/
def parse_date (v : DateValue) : Option PDate :=
  match v with
  | .na => none
  | .dt d => some d
  | .str s => if s = "" then none else tryFormatsC (pyStrip s).data

/-- `ExcelRMSPProcessor.compare_dates`: empty string when either side fails
to parse (Python `not` on `None`), else "да" iff contract strictly precedes
inclusion. -/
def compare_dates (contractDate inclusionDate : DateValue) : String :=
  match parse_date contractDate, parse_date inclusionDate with
  | some cp, some ip => if pdLt cp ip then "да" else "нет"
  | _, _ => ""

/-! ### Identifier validation (`validate_inn`, identical in
`rmsp_parser.py`, `rmsp_no_chrome.py`, `rmsp_playwright.py`) -/

/-- Remove every space and hyphen: `inn.replace(' ', '').replace('-', '')`. -/
def stripSpHy (s : String) : String :=
  ⟨s.data.filter (fun c => !(c == ' ' || c == '-'))⟩

/-- Is `cs` exactly `n` ASCII digits? -/
def digitsLen (cs : List Char) (n : Nat) : Bool := cs.all (isD ·) && cs.length == n

/-- `re.match(r'^\d{10}$|^\d{12}$', t)` succeeds: note that Python `$` also
matches just before one trailing newline, so `"1234567890\n"` matches. -/
def innRe (t : String) : Bool :=
  digitsLen t.data 10 || digitsLen t.data 12 ||
    (t.data.getLast? == some '\n' &&
      (digitsLen t.data.dropLast 10 || digitsLen t.data.dropLast 12))

/-- `validate_inn`: `none` models the Python return value `False`. The
argument `none` models passing `None` (falsy, rejected up front). -/
def validate_inn (inn : Option String) : Option String :=
  match inn with
  | none => none
  | some s =>
    if s = "" then none
    else
      let t := stripSpHy s
      if innRe t then some t else none

/-! ### Document model (BeautifulSoup view of the rendered markup)

A parsed HTML document is a tree of element nodes (tag name, `class`
attribute as its literal string, `href` attribute, children) and text nodes
(`NavigableString`s). A document is the list of top-level nodes
(the children of the `BeautifulSoup` root). -/

inductive Node where
  | elem : String → String → String → List Node → Node
  | text : String → Node

/-- Tag name of an element node; text nodes have none. -/
def tagOf : Node → String
  | .elem t _ _ _ => t
  | .text _ => ""

/-- Children of a node. -/
def childrenOf : Node → List Node
  | .elem _ _ _ cs => cs
  | .text _ => []

mutual
/-- `get_text()` of a node: concatenation of all descendant strings in
document order. -/
def getTextRaw : Node → String
  | .text s => s
  | .elem _ _ _ cs => getTextRawL cs
/-- `get_text()` over a forest. -/
def getTextRawL : List Node → String
  | [] => ""
  | n :: ns => getTextRaw n ++ getTextRawL ns
end

mutual
/-- `get_text(strip=True)`: each string stripped, empties dropped, joined
with the empty separator. -/
def getTextStrip : Node → String
  | .text s => pyStrip s
  | .elem _ _ _ cs => getTextStripL cs
/-- `get_text(strip=True)` over a forest. -/
def getTextStripL : List Node → String
  | [] => ""
  | n :: ns => getTextStrip n ++ getTextStripL ns
end

mutual
/-- `soup.find(...)` restricted to one node: the node itself (if an element
satisfying `p`) or its first matching descendant in document order. -/
def findEN (p : String → String → String → Bool) : Node → Option Node
  | .text _ => none
  | .elem t c h cs => if p t c h then some (.elem t c h cs) else findE p cs
/-- `soup.find(...)` over element nodes of a forest: first element, in
document (pre-)order, whose tag/class/href satisfy `p`. -/
def findE (p : String → String → String → Bool) : List Node → Option Node
  | [] => none
  | n :: ns =>
    match findEN p n with
    | some r => some r
    | none => findE p ns
end

mutual
/-- `find_all(...)` restricted to one node. -/
def findAllEN (p : String → String → String → Bool) : Node → List Node
  | .text _ => []
  | .elem t c h cs =>
    (if p t c h then [Node.elem t c h cs] else []) ++ findAllE p cs
/-- `find_all(...)`: every matching element of a forest in document order. -/
def findAllE (p : String → String → String → Bool) : List Node → List Node
  | [] => []
  | n :: ns => findAllEN p n ++ findAllE p ns
end

mutual
/-- `soup.find(string=pattern)` with `.parent`, restricted to one node whose
parent is `parent`. -/
def findStrN (p : String → Bool) (parent : Node) : Node → Option (String × Node)
  | .text s => if p s then some (s, parent) else none
  | .elem t c h cs => findStrL p (.elem t c h cs) cs
/-- `soup.find(string=pattern)` together with `.parent`: the first text node
(in document order) satisfying `p`, paired with its parent element
(`parent` is the synthetic root for top-level strings). -/
def findStrL (p : String → Bool) (parent : Node) : List Node → Option (String × Node)
  | [] => none
  | n :: ns =>
    match findStrN p parent n with
    | some r => some r
    | none => findStrL p parent ns
end

mutual
/-- `findE` with ancestors, restricted to one node with ancestors `anc`. -/
def findEAncN (p : String → String → String → Bool) (anc : List Node) :
    Node → Option (Node × List Node)
  | .text _ => none
  | .elem t c h cs =>
    if p t c h then some (.elem t c h cs, anc)
    else findEAnc p (.elem t c h cs :: anc) cs
/-- Like `findE` but also returns the matched element's ancestor chain
(nearest first), for `find_parent`. -/
def findEAnc (p : String → String → String → Bool) (anc : List Node) :
    List Node → Option (Node × List Node)
  | [] => none
  | n :: ns =>
    match findEAncN p anc n with
    | some r => some r
    | none => findEAnc p anc ns
end

mutual
/-- CSS `td:first-child a` restricted to one element node: `selfFC` says
whether the node sits inside a first-child `td`; `subFC` is the flag for
its subtree (computed by the caller, which knows the sibling state). -/
def selTdNode (selfFC subFC : Bool) (anc : List Node) : Node → Option (Node × List Node)
  | .text _ => none
  | .elem t c h cs =>
    if selfFC && t == "a" then some (.elem t c h cs, anc)
    else selTdFCa subFC false (.elem t c h cs :: anc) cs
/-- CSS `td:first-child a` (soupsieve): first `a` element, in document
order, that is a descendant of a `td` which is the first element child of
its parent. `inFC` records being inside such a `td`; `seen` whether an
element sibling was already passed at the current level. -/
def selTdFCa (inFC seen : Bool) (anc : List Node) :
    List Node → Option (Node × List Node)
  | [] => none
  | .text _ :: ns => selTdFCa inFC seen anc ns
  | .elem t c h cs :: ns =>
    match selTdNode inFC (inFC || (t == "td" && !seen)) anc (.elem t c h cs) with
    | some r => some r
    | none => selTdFCa inFC true anc ns
end

mutual
/-- `tag.string` of BeautifulSoup: the unique descendant string reached
through single-child elements, if any. -/
def nodeStr : Node → Option String
  | .text s => some s
  | .elem _ _ _ cs => nodeStrL cs
/-- `tag.string` over a child list: defined only for a singleton. -/
def nodeStrL : List Node → Option String
  | [n] => nodeStr n
  | _ => none
end

/-! ### Regex search engines for the concrete patterns of the source -/

/-- One attempt of `re.search(label + skip* + digit{lo,hi?})` at the start of
`cs`: after the literal label, skip characters in `skip` greedily, then
require a digit run of length at least `lo`; the captured group is the run
truncated to `hi` digits (greedy `\d{lo,hi}` with nothing after it), or the
whole run when `hi = none` (`\d+`). -/
def tryLD (lbl : List Char) (skip : Char → Bool) (lo : Nat) (hi : Option Nat)
    (cs : List Char) : Option (List Char) :=
  match dropLabel lbl cs with
  | none => none
  | some rest =>
    let run := (rest.dropWhile skip).takeWhile (isD ·)
    if lo ≤ run.length then
      some (match hi with | some h => run.take h | none => run)
    else none

/-- `re.search` scan: leftmost start position where `tryLD` succeeds. -/
def scanLD (lbl : List Char) (skip : Char → Bool) (lo : Nat) (hi : Option Nat) :
    List Char → Option (List Char)
  | [] => tryLD lbl skip lo hi []
  | c :: t =>
    match tryLD lbl skip lo hi (c :: t) with
    | some r => some r
    | none => scanLD lbl skip lo hi t

/-- Skip set `[:\s]*` of the patterns `ИНН[:\s]*...` / `ОГРН[:\s]*...`. -/
def isColWS (c : Char) : Bool := c == ':' || isWS c

/-- `re.search(r'ИНН[:\s]*(\d{10,12})', s)` (case-sensitive). -/
def searchINNrow (s : String) : Option String :=
  (scanLD "ИНН".data (isColWS ·) 10 (some 12) s.data).map (⟨·⟩)

/-- `re.search(r'ОГРН[:\s]*(\d{13,15})', s)`. -/
def searchOGRNrow (s : String) : Option String :=
  (scanLD "ОГРН".data (isColWS ·) 13 (some 15) s.data).map (⟨·⟩)

/-- `re.search(r'ИНН:\s*(\d{10,12})', s)` (detail blocks: colon required). -/
def searchINNdet (s : String) : Option String :=
  (scanLD "ИНН:".data (isWS ·) 10 (some 12) s.data).map (⟨·⟩)

/-- `re.search(r'ОГРН:\s*(\d{13,15})', s)`. -/
def searchOGRNdet (s : String) : Option String :=
  (scanLD "ОГРН:".data (isWS ·) 13 (some 15) s.data).map (⟨·⟩)

/-- `re.search(r'Найдено записей:\s*(\d+)', s)`: the captured digit run of
the leftmost match, if any. -/
def counterSearch (s : String) : Option (List Char) :=
  scanLD "Найдено записей:".data (isWS ·) 1 none s.data

/-- The separator class (dot, hyphen or slash) of the exclusion-date
patterns. -/
def isSep (c : Char) : Bool := c == '.' || c == '-' || c == '/'

/-- Match `\d{1,2}` followed by a separator at the start of `cs`; the regex
backtracking resolves to: the whole leading digit run (which must have
length 1 or 2) followed by a separator. Returns (digits, sep, rest). -/
def dSeg (cs : List Char) : Option (List Char × Char × List Char) :=
  let run := cs.takeWhile (isD ·)
  if run.length == 1 || run.length == 2 then
    match cs.drop run.length with
    | s :: rest => if isSep s then some (run, s, rest) else none
    | [] => none
  else none

/-- Match greedy `\d{2,4}` (nothing follows it in the pattern): up to four
leading digits, at least two. -/
def yearSeg (cs : List Char) : Option (List Char) :=
  let run := cs.takeWhile (isD ·)
  if 4 ≤ run.length then some (run.take 4)
  else if 2 ≤ run.length then some run
  else none

/-- The date group of the exclusion patterns (one or two digits, separator,
one or two digits, separator, two to four digits) matched at the start of
`cs`. -/
def dateFlexAt (cs : List Char) : Option (List Char) :=
  match dSeg cs with
  | none => none
  | some (d1, s1, r1) =>
    match dSeg r1 with
    | none => none
    | some (d2, s2, r2) =>
      match yearSeg r2 with
      | none => none
      | some y => some (d1 ++ s1 :: (d2 ++ s2 :: y))

/-- One attempt of an exclusion pattern at the start of `cs`: literal label,
then (for the verb patterns) `[а-я]*`, then `[:\s]*`, then the date group. -/
def tryExcl (lbl : List Char) (az : Bool) (cs : List Char) : Option (List Char) :=
  match dropLabel lbl cs with
  | none => none
  | some rest =>
    let rest := if az then rest.dropWhile (fun c => 'а' ≤ c && c ≤ 'я') else rest
    dateFlexAt (rest.dropWhile (isColWS ·))

/-- `re.search` scan for one exclusion pattern. -/
def scanExcl (lbl : List Char) (az : Bool) : List Char → Option (List Char)
  | [] => tryExcl lbl az []
  | c :: t =>
    match tryExcl lbl az (c :: t) with
    | some r => some r
    | none => scanExcl lbl az t

/-- The five exclusion-date patterns of `parse_results`, tried in order on
the lowercased page text (`re.IGNORECASE`); first pattern with a hit wins. -/
def exclSearch (low : String) : Option String :=
  ((scanExcl "дата исключения".data false low.data).orElse fun _ =>
   (scanExcl "исключен".data true low.data).orElse fun _ =>
   (scanExcl "дата выбытия".data false low.data).orElse fun _ =>
   (scanExcl "выбыл".data true low.data).orElse fun _ =>
   scanExcl "исключение".data false low.data).map (⟨·⟩)

/-- `re.findall(r'\d{2}\.\d{2}\.\d{4}', s)[0]`: the pattern matched at the
start of `cs`, if it fits. -/
def dateAt10 (cs : List Char) : Option (List Char) :=
  match cs with
  | a :: b :: p :: c :: d :: q :: e :: f :: g :: h :: _ =>
    if isD a && isD b && p == '.' && isD c && isD d && q == '.' &&
        isD e && isD f && isD g && isD h then
      some [a, b, p, c, d, q, e, f, g, h]
    else none
  | _ => none

/-- Leftmost `dd.mm.yyyy`-shaped substring of a character list. -/
def firstDateC : List Char → Option (List Char)
  | [] => none
  | c :: t =>
    match dateAt10 (c :: t) with
    | some r => some r
    | none => firstDateC t

/-- Leftmost `dd.mm.yyyy`-shaped substring of a string. -/
def firstDate (s : String) : Option String := (firstDateC s.data).map (⟨·⟩)

/-! ### The result dictionary of `RMSPParser.parse_results`

The Python function builds a dict with nine fixed keys and mutates values in
place; this is modelled as an association list updated by `setk` (updates an
existing key, leaves the list shape untouched — every write in the source
hits one of the nine initial keys). -/

inductive Val where
  | b : Bool → Val
  | s : String → Val
deriving DecidableEq

/-- The association-list model of the Python result dict. -/
abbrev RDict := List (String × Val)

/-- In-place update of key `k` (Python `result[k] = v`). -/
def setk (d : RDict) (k : String) (v : Val) : RDict :=
  d.map (fun p => if p.1 = k then (p.1, v) else p)

/-- A dict with the nine fixed keys of `parse_results`, in the declared
order, `found` boolean and the rest strings. -/
def mkR (f : Bool) (orgName cat incl excl reg innV ogrnV msg : String) : RDict :=
  [("found", .b f), ("organization_name", .s orgName), ("category", .s cat),
   ("inclusion_date", .s incl), ("exclusion_date", .s excl),
   ("region", .s reg), ("inn", .s innV), ("ogrn", .s ogrnV),
   ("message", .s msg)]

/-- First value bound to `k`. -/
def lookupV : RDict → String → Option Val
  | [], _ => none
  | (k', v) :: d, k => if k' = k then some v else lookupV d k

/-- `result.get(k, '')` for the string-valued fields. -/
def getS (d : RDict) (k : String) : String :=
  match lookupV d k with
  | some (.s x) => x
  | _ => ""

/-- Truthiness of `result['found']` (always a bool in the source). -/
def getFoundD (d : RDict) : Bool :=
  match lookupV d "found" with
  | some (.b x) => x
  | _ => false

/-! ### The extraction cascade of `RMSPParser.parse_results` -/

/-- `class_=re.compile(r'alert|warning', re.I)`: the class attribute string
contains "alert" or "warning" case-insensitively. -/
def clsAlert (c : String) : Bool :=
  containsSub (pyLower c) "alert" || containsSub (pyLower c) "warning"

/-- The not-found word list checked against the first warning block. -/
def negWordsIn (l : String) : Bool :=
  containsSub l "не найдено" || containsSub l "не найден" || containsSub l "отсутствует"

/-- Stage 1 of `parse_results`: the first div with an alert/warning class,
returned when its stripped text contains a negative word. -/
def warning_check (root : List Node) : Option String :=
  match findE (fun t c _ => t == "div" && clsAlert c) root with
  | some w =>
    let wt := getTextStrip w
    if negWordsIn (pyLower wt) then some wt else none
  | none => none

/-- `re.compile(r'Уважаемый пользователь')` as a string filter. -/
def userPat (s : String) : Bool := containsSub s "Уважаемый пользователь"

/-- Stage 2 of `parse_results`: the first text node containing the "dear
user" phrase; its parent's stripped text is returned when it contains the
"no information found" wording. -/
def user_check (root : List Node) : Option String :=
  match findStrL userPat (Node.elem "[document]" "" "" root) root with
  | some (_, par) =>
    let mt := getTextStrip par
    if containsSub (pyLower mt) "не найдено сведений" then some mt else none
  | none => none

/-- Stage 3 of `parse_results`: the first text node matching the results
counter pattern, triggering when its first counter value is zero. -/
def counter_zero (root : List Node) : Bool :=
  match findStrL (fun s => (counterSearch s).isSome)
      (Node.elem "[document]" "" "" root) root with
  | some (str, _) =>
    match counterSearch str with
    | some run => valOfDigits run == 0
    | none => false
  | none => false

/-- What the primary table strategy extracts from the first data table. -/
structure TabRec where
  orgName : String
  cat : String
  reg : String
  incl : String
  excl : Option String
  innV : Option String
  ogrnV : Option String
deriving DecidableEq

/-- First row (of `rows[1:]`) having at least four td/th cells, with its
cells. -/
def firstWideRow : List Node → Option (Node × List Node)
  | [] => none
  | r :: rs =>
    let cs := findAllE (fun t _ _ => t == "td" || t == "th") (childrenOf r)
    if 4 ≤ cs.length then some (r, cs) else firstWideRow rs

/-- Organization name from the first cell: unwrap a hyperlink if present. -/
def cellName (c : Node) : String :=
  match findE (fun t _ _ => t == "a") (childrenOf c) with
  | some a => getTextStrip a
  | none => getTextStrip c

/-- Stage 4 of `parse_results` (primary table extraction), as the data it
extracts: positional cells 0-4 plus the identifier regexes over the row's
raw text. -/
def tableMain (root : List Node) : Option TabRec :=
  match findE (fun t _ _ => t == "table") root with
  | none => none
  | some tbl =>
    let rows := findAllE (fun t _ _ => t == "tr") (childrenOf tbl)
    if 1 < rows.length then
      match firstWideRow rows.tail with
      | none => none
      | some (row, cells) =>
        match cells with
        | c0 :: c1 :: c2 :: c3 :: rest =>
          let rt := getTextRaw row
          some { orgName := cellName c0, cat := getTextStrip c1,
                 reg := getTextStrip c2, incl := getTextStrip c3,
                 excl :=
                   match rest with
                   | c4 :: _ =>
                     let e := getTextStrip c4
                     if e != "" && e != "-" then some e else none
                   | [] => none,
                 innV := searchINNrow rt, ogrnV := searchOGRNrow rt }
        | _ => none
    else none

/-- The dict writes of the primary table strategy. -/
def table_stage (root : List Node) (d : RDict) : RDict :=
  match tableMain root with
  | none => d
  | some r =>
    let d := setk d "found" (.b true)
    let d := setk d "organization_name" (.s r.orgName)
    let d := setk d "category" (.s r.cat)
    let d := setk d "region" (.s r.reg)
    let d := setk d "inclusion_date" (.s r.incl)
    let d := match r.excl with | some e => setk d "exclusion_date" (.s e) | none => d
    let d := match r.innV with | some v => setk d "inn" (.s v) | none => d
    match r.ogrnV with | some v => setk d "ogrn" (.s v) | none => d

/-- The divs whose `.string` matches `re.compile(r'ИНН|ОГРН')`. -/
def detailBlocks (root : List Node) : List Node :=
  (findAllE (fun t _ _ => t == "div") root).filter fun b =>
    match nodeStr b with
    | some str => containsSub str "ИНН" || containsSub str "ОГРН"
    | none => false

/-- Per-block body of the detail-information loop. -/
def detailStep (d : RDict) (b : Node) : RDict :=
  let txt := getTextRaw b
  let d :=
    if containsSub txt "ИНН:" && getS d "inn" == "" then
      match searchINNdet txt with
      | some v => setk d "inn" (.s v)
      | none => d
    else d
  if containsSub txt "ОГРН:" && getS d "ogrn" == "" then
    match searchOGRNdet txt with
    | some v => setk d "ogrn" (.s v)
    | none => d
  else d

/-- Stage 5 of `parse_results` (identifier recovery), run only if found. -/
def detail_stage (root : List Node) (d : RDict) : RDict :=
  if getFoundD d then (detailBlocks root).foldl detailStep d else d

/-- CSS class-token membership (for `.organization-name` etc.). -/
def hasTok (c tok : String) : Bool :=
  ((c.data.splitOnP (isWS ·)).filter (fun g => !g.isEmpty)).any (· == tok.data)

/-- The ordered selector list of the selector-based fallback; the first
selector with a match wins, returning the element and its ancestors. -/
def selFind (root : List Node) : Option (Node × List Node) :=
  (findEAnc (fun t _ h => t == "a" && containsSub h "view") [] root).orElse fun _ =>
  (findEAnc (fun _ c _ => hasTok c "organization-name") [] root).orElse fun _ =>
  (findEAnc (fun _ c _ => hasTok c "company-name") [] root).orElse fun _ =>
  selTdFCa false false [] root

/-- What the selector-based fallback extracts. -/
structure SelRec where
  orgName : String
  rowData : Option (String × String × String × Option String)
deriving DecidableEq

/-- Stage 6 of `parse_results` (selector fallback), as the data it
extracts: the matched element's text plus cells 1-4 of its ancestor row. -/
def selMain (root : List Node) : Option SelRec :=
  match selFind root with
  | none => none
  | some (el, anc) =>
    some { orgName := getTextStrip el,
           rowData :=
             match anc.find? (fun n => tagOf n == "tr") with
             | none => none
             | some row =>
               let cs := findAllE (fun t _ _ => t == "td") (childrenOf row)
               if 4 ≤ cs.length then
                 match cs with
                 | _ :: c1 :: c2 :: c3 :: rest =>
                   some (getTextStrip c1, getTextStrip c2, getTextStrip c3,
                     match rest with
                     | c4 :: _ => some (getTextStrip c4)
                     | [] => none)
                 | _ => none
               else none }

/-- The dict writes of the selector fallback, run only if not yet found. -/
def selector_stage (root : List Node) (d : RDict) : RDict :=
  if getFoundD d then d
  else
    match selMain root with
    | none => d
    | some srec =>
      let d := setk d "found" (.b true)
      let d := setk d "organization_name" (.s srec.orgName)
      match srec.rowData with
      | none => d
      | some (cat, reg, incl, exc) =>
        let d := setk d "category" (.s cat)
        let d := setk d "region" (.s reg)
        let d := setk d "inclusion_date" (.s incl)
        match exc with
        | some e => if e != "" && e != "-" then setk d "exclusion_date" (.s e) else d
        | none => d

/-- The if/elif category chain of the keyword fallback (case-sensitive). -/
def cat4 (pt : String) : Option String :=
  if containsSub pt "Микропредприятие" then some "Микропредприятие"
  else if containsSub pt "Малое предприятие" then some "Малое предприятие"
  else if containsSub pt "Среднее предприятие" then some "Среднее предприятие"
  else if containsSub pt "Не является субъектом МСП" then some "Не является субъектом МСП"
  else none

/-- Stage 7 of `parse_results` (keyword fallback): requires the literal
`RSMP_CATEGORY` marker in the raw page text plus one of the four category
phrases; sets found, a placeholder organization name and the category. -/
def keyword_stage (root : List Node) (d : RDict) : RDict :=
  if getFoundD d then d
  else
    let pt := getTextRawL root
    if containsSub pt "RSMP_CATEGORY" then
      match cat4 pt with
      | some c =>
        setk (setk (setk d "found" (.b true))
          "organization_name" (.s "Организация найдена (требуется уточнение названия)"))
          "category" (.s c)
      | none => d
    else d

/-- Stage 8 of `parse_results` (exclusion-date recovery): only for the
"not a qualifying business" category with no exclusion date yet. -/
def exclusion_recovery (root : List Node) (d : RDict) : RDict :=
  if getFoundD d && getS d "category" == "Не является субъектом МСП" &&
      getS d "exclusion_date" == "" then
    match exclSearch (pyLower (getTextRawL root)) with
    | some v => setk d "exclusion_date" (.s v)
    | none => d
  else d

/-- The initial dict literal of `parse_results`. -/
def initR : RDict := mkR false "" "" "" "" "" "" "" ""

/-- The early-return dict of the three negative paths. -/
def negR (msg : String) : RDict :=
  setk (setk initR "found" (.b false)) "message" (.s msg)

/-- `RMSPParser.parse_results`, assembled from its stages in source order. -/
def parse_results (root : List Node) : RDict :=
  match warning_check root with
  | some t => negR t
  | none =>
    match user_check root with
    | some t => negR t
    | none =>
      if counter_zero root then negR "Записи не найдены"
      else
        exclusion_recovery root (keyword_stage root (selector_stage root
          (detail_stage root (table_stage root initR))))

/-! ### `parse_search_results` of `rmsp_no_chrome.py` / `rmsp_playwright.py`
(the two files contain the identical function) -/

/-- The four-field result record of the alternate extractors. -/
structure SRes where
  found : Bool
  category : String
  inclusion_date : String
  message : String
deriving DecidableEq

/-- Negative check of the alternate extractors: first "dear user" text
node whose parent's raw lowercased text contains the wording. -/
def negNC (root : List Node) : Bool :=
  match findStrL userPat (Node.elem "[document]" "" "" root) root with
  | some (_, par) => containsSub (pyLower (getTextRaw par)) "не найдено сведений"
  | none => false

/-- Table extraction of the alternate extractors: category and inclusion
date from the first row with at least four cells. -/
def tableNC (root : List Node) : Option (String × String) :=
  match findE (fun t _ _ => t == "table") root with
  | none => none
  | some tbl =>
    let rows := findAllE (fun t _ _ => t == "tr") (childrenOf tbl)
    if 1 < rows.length then
      match firstWideRow rows.tail with
      | some (_, cells) =>
        match cells with
        | _ :: c1 :: _ :: c3 :: _ => some (getTextStrip c1, getTextStrip c3)
        | _ => none
      | none => none
    else none

/-- Keyword chain of the alternate extractors, over the lowercased page
text. -/
def kwNC (low : String) : Option String :=
  if containsSub low "микропредприятие" then some "Микропредприятие"
  else if containsSub low "малое предприятие" then some "Малое предприятие"
  else if containsSub low "среднее предприятие" then some "Среднее предприятие"
  else none

/-- `parse_search_results` (identical in `rmsp_no_chrome.py` and
`rmsp_playwright.py`). -/
def parse_search_results (root : List Node) : SRes :=
  if negNC root then
    { found := false, category := "-", inclusion_date := "-",
      message := "Организация не найдена в реестре" }
  else
    match tableNC root with
    | some (cat, incl) =>
      { found := true, category := cat, inclusion_date := incl, message := "" }
    | none =>
      match kwNC (pyLower (getTextRawL root)) with
      | some cat =>
        { found := true, category := cat,
          inclusion_date :=
            match firstDate (getTextRawL root) with
            | some ds => ds
            | none => "-",
          message := "" }
      | none => { found := false, category := "-", inclusion_date := "-", message := "" }

/-! ### Lookup entry points with an explicit effect trace

The browser/network side of `search_with_selenium` (and of the Playwright
variant) is I/O; it is abstracted as an oracle mapping the validated
identifier to the lookup outcome together with the network events it
performs. The embedded entry points show where the validation gate sits:
the oracle is invoked only after `validate_inn` succeeds. -/

inductive NetEvent where
  | chromeConnect : NetEvent
  | navigate : NetEvent
  | submitQuery : String → NetEvent
deriving DecidableEq

/-- `RMSPParser.search_by_inn`: validate, then (only on success) run the
browser search; `none` models the Python return value `None`. -/
def search_by_inn_tr (oracle : String → Option RDict × List NetEvent)
    (inn : Option String) : Option RDict × List NetEvent :=
  match validate_inn inn with
  | none => (none, [])
  | some v => oracle v

/-- The fixed not-found record the Playwright/no-chrome entry points return
for an invalid identifier. -/
def invalidRes (inn : String) : SRes :=
  { found := false, category := "-", inclusion_date := "-",
    message := "Некорректный ИНН: " ++ inn }

/-- `search_rmsp_playwright` (and `search_rmsp_requests` /
`search_rmsp_simple` of `rmsp_no_chrome.py`, which share the same gate):
validate first, browse only on success. -/
def search_rmsp_playwright_tr (oracle : String → SRes × List NetEvent)
    (inn : String) : SRes × List NetEvent :=
  match validate_inn (some inn) with
  | none => (invalidRes inn, [])
  | some v => oracle v

/-! ### The batch orchestrator (`ExcelRMSPProcessor`) -/

/-- Outcome of one `parser.search_by_inn` call as seen by
`process_single_inn`: an exception, or a returned value (`none` = Python
`None`). -/
inductive Outcome where
  | exn : Outcome
  | ok : Option RDict → Outcome
deriving DecidableEq

/-- The five derived values built by `process_single_inn`. -/
structure ProcRec where
  smsp : String
  category : String
  inclusion_date : String
  exclusion_date : String
  discrepancy : String
deriving DecidableEq

/-- The default "not found" record of `process_single_inn`. -/
def defaultProc : ProcRec :=
  { smsp := "нет", category := "", inclusion_date := "", exclusion_date := "",
    discrepancy := "" }

/-- `pd.isna(inn_value) or str(inn_value).strip() == ''`. -/
def innEmpty : Option String → Bool
  | none => true
  | some s => pyStrip s == ""

/-- `ExcelRMSPProcessor.process_single_inn`, with the search call's outcome
supplied as a parameter: any exception and any falsy / not-found result
leave the default record. -/
def process_single_inn (innv : Option String) (oc : Outcome) : ProcRec :=
  if innEmpty innv then defaultProc
  else
    match oc with
    | .exn => defaultProc
    | .ok none => defaultProc
    | .ok (some res) =>
      if !res.isEmpty && getFoundD res then
        { smsp := "да", category := getS res "category",
          inclusion_date := getS res "inclusion_date",
          exclusion_date := getS res "exclusion_date", discrepancy := "" }
      else defaultProc

/-- One input row: identifier cell (`none` = NaN) and contract-date cell. -/
structure RowIn where
  inn : Option String
  contract : DateValue

/-- The five output cells written back for one row. -/
structure RowOut where
  smsp : String
  category : String
  inclusion : String
  exclusion : String
  discrepancy : String
deriving DecidableEq

/-- The placeholder test guarding the exclusion-date cell write in
`process_excel_file`. -/
def exclusionKeep (e : String) : Bool :=
  e != "" && pyStrip e != "" &&
    !([("не указана" : String), "не найдена", "(пусто)", "пусто"].contains (pyLower e))

/-- The per-row cell writes of the `process_excel_file` loop: exclusion date
blanked unless real, discrepancy computed only when found. -/
def rowOutput (contract : DateValue) (p : ProcRec) : RowOut :=
  { smsp := p.smsp, category := p.category, inclusion := p.inclusion_date,
    exclusion := if exclusionKeep p.exclusion_date then p.exclusion_date else "",
    discrepancy :=
      if p.smsp == "да" then compare_dates contract (.str p.inclusion_date)
      else "" }

/-- Full processing of one row. -/
def processRow (r : RowIn) (oc : Outcome) : RowOut :=
  rowOutput r.contract (process_single_inn r.inn oc)

/-- The all-empty output row of a skipped or failed lookup. -/
def defaultRowOut : RowOut :=
  { smsp := "нет", category := "", inclusion := "", exclusion := "",
    discrepancy := "" }

/-- The row loop of `process_excel_file`: each row is processed with its own
search outcome (`o i` the outcome of the i-th search), sequentially and
independently. -/
def processRows (rows : List RowIn) (o : Nat → Outcome) : List RowOut :=
  rows.enum.map fun p => processRow p.2 (o p.1)

/-! ### Concrete documents used as witnesses and counterexamples -/

/-- A header row with four th cells. -/
def hrow : Node :=
  .elem "tr" "" "" [.elem "th" "" "" [.text "Название"],
    .elem "th" "" "" [.text "Категория"], .elem "th" "" "" [.text "Регион"],
    .elem "th" "" "" [.text "Дата включения"]]

/-- A four-cell data row: name, category, region, inclusion date. -/
def drow4 : Node :=
  .elem "tr" "" "" [.elem "td" "" "" [.text "ООО Ромашка"],
    .elem "td" "" "" [.text "Микропредприятие"], .elem "td" "" "" [.text "Москва"],
    .elem "td" "" "" [.text "01.02.2020"]]

/-- A five-cell data row whose category is "Малое предприятие" and whose
fifth cell carries an exclusion date. -/
def drow5 : Node :=
  .elem "tr" "" "" [.elem "td" "" "" [.elem "a" "" "view?id=1" [.text "ООО Василёк"]],
    .elem "td" "" "" [.text "Малое предприятие"], .elem "td" "" "" [.text "Москва"],
    .elem "td" "" "" [.text "10.01.2020"], .elem "td" "" "" [.text "05.05.2021"]]

/-- A results table with one four-cell data row. -/
def tabl4 : Node := .elem "table" "" "" [hrow, drow4]

/-- A results table with one five-cell data row. -/
def tabl5 : Node := .elem "table" "" "" [hrow, drow5]

/-- Document whose FIRST alert-styled block carries no negative wording
while a SECOND alert-styled block does, plus a data table. -/
def c4doc : List Node :=
  [.elem "div" "alert" "" [.text "Внимание: сервис работает в тестовом режиме"],
   .elem "div" "alert-box" "" [.text "По вашему запросу не найдено сведений"],
   tabl4]

/-- Document whose first (and only) warning block carries negative wording,
plus a data table. -/
def c4wdoc : List Node :=
  [.elem "div" "warning" "" [.text "По данному запросу ничего не найдено"], tabl4]

/-- Document with a "dear user ... nothing found" banner plus a data table. -/
def udoc : List Node :=
  [.elem "div" "" "" [.text "Уважаемый пользователь! По вашему запросу не найдено сведений"],
   tabl4]

/-- Document whose FIRST counter text node reads 5 while a later one reads
0, plus a data table. -/
def c9doc : List Node :=
  [.elem "div" "" "" [.text "Найдено записей: 5"],
   .elem "div" "" "" [.text "Найдено записей: 0"], tabl4]

/-- Document whose first counter text node reads 0, plus a data table. -/
def c9wdoc : List Node := [.elem "div" "" "" [.text "Найдено записей: 0"], tabl4]

/-- Document with the five-cell table only. -/
def c3doc : List Node := [tabl5]

/-- Document whose only signal is a category keyword plus a date-shaped
substring in free text. -/
def c5doc : List Node :=
  [.text "Карточка: Малое предприятие, дата регистрации 05.03.2021"]

/-- Like `c5doc` but with the `RSMP_CATEGORY` marker present. -/
def c5mdoc : List Node :=
  [.text "var RSMP_CATEGORY = x; Малое предприятие, дата 05.03.2021"]

/-! ### Shape invariant of the result dictionary -/

/-- A dict of the nine-key shape with `found` boolean and strings
elsewhere. -/
def Shaped (d : RDict) : Prop :=
  ∃ f n c i e r g o m, d = mkR f n c i e r g o m

theorem shaped_initR : Shaped initR :=
  ⟨false, "", "", "", "", "", "", "", "", rfl⟩

theorem shaped_table_stage (root : List Node) (d : RDict) (h : Shaped d) :
    Shaped (table_stage root d) := by
  obtain ⟨f, n, c, i, e, r, g, o, m, rfl⟩ := h
  unfold table_stage
  try dsimp only
  repeat' split
  all_goals exact ⟨_, _, _, _, _, _, _, _, _, rfl⟩

theorem shaped_detailStep (d : RDict) (b : Node) (h : Shaped d) :
    Shaped (detailStep d b) := by
  obtain ⟨f, n, c, i, e, r, g, o, m, rfl⟩ := h
  unfold detailStep
  try dsimp only
  repeat' split
  all_goals exact ⟨_, _, _, _, _, _, _, _, _, rfl⟩

theorem shaped_detail_stage (root : List Node) (d : RDict) (h : Shaped d) :
    Shaped (detail_stage root d) := by
  unfold detail_stage
  split
  · have aux : ∀ (bs : List Node) (d0 : RDict), Shaped d0 →
        Shaped (bs.foldl detailStep d0) := by
      intro bs
      induction bs with
      | nil => intro d0 h0; exact h0
      | cons b bs ih => intro d0 h0; exact ih _ (shaped_detailStep d0 b h0)
    exact aux _ _ h
  · exact h

theorem shaped_selector_stage (root : List Node) (d : RDict) (h : Shaped d) :
    Shaped (selector_stage root d) := by
  obtain ⟨f, n, c, i, e, r, g, o, m, rfl⟩ := h
  unfold selector_stage
  try dsimp only
  repeat' split
  all_goals exact ⟨_, _, _, _, _, _, _, _, _, rfl⟩

theorem shaped_keyword_stage (root : List Node) (d : RDict) (h : Shaped d) :
    Shaped (keyword_stage root d) := by
  obtain ⟨f, n, c, i, e, r, g, o, m, rfl⟩ := h
  unfold keyword_stage
  try dsimp only
  repeat' split
  all_goals exact ⟨_, _, _, _, _, _, _, _, _, rfl⟩

theorem shaped_exclusion_recovery (root : List Node) (d : RDict) (h : Shaped d) :
    Shaped (exclusion_recovery root d) := by
  obtain ⟨f, n, c, i, e, r, g, o, m, rfl⟩ := h
  unfold exclusion_recovery
  try dsimp only
  repeat' split
  all_goals exact ⟨_, _, _, _, _, _, _, _, _, rfl⟩

/-! ### Formatting a date as dd.mm.yyyy (for the round-trip property) -/

/-- The ASCII digit character of `n < 10`. -/
def dChar (n : Nat) : Char := Char.ofNat (48 + n)

/-- Two-digit zero-padded decimal rendering (for day and month). -/
def pad2 (n : Nat) : List Char := [dChar (n / 10), dChar (n % 10)]

/-- Four-digit zero-padded decimal rendering (for the year). -/
def pad4 (n : Nat) : List Char :=
  [dChar (n / 1000), dChar (n / 100 % 10), dChar (n / 10 % 10), dChar (n % 10)]

/-- A date rendered in the `dd.mm.yyyy` shape (character list). -/
def fmtC (d : PDate) : List Char :=
  pad2 d.day ++ '.' :: (pad2 d.month ++ '.' :: pad4 d.year)

/-- A date rendered in the `dd.mm.yyyy` shape. -/
def fmtDDMMYYYY (d : PDate) : String := ⟨fmtC d⟩

/-- A triple acceptable to the `datetime.date` constructor. -/
def validPDate (d : PDate) : Bool := okDate d.year d.month d.day

theorem isD_dChar (n : Nat) (h : n < 10) : isD (dChar n) = true := by
  interval_cases n <;> decide

theorem toNat_dChar (n : Nat) (h : n < 10) : (dChar n).toNat = 48 + n := by
  interval_cases n <;> decide

theorem dChar_beq_dot (n : Nat) (h : n < 10) : (dChar n == '.') = false := by
  interval_cases n <;> decide

theorem isWS_dChar (n : Nat) (h : n < 10) : isWS (dChar n) = false := by
  interval_cases n <;> decide

theorem valOfDigits_pad2 (n : Nat) (h : n < 100) : valOfDigits (pad2 n) = n := by
  have h1 : n / 10 < 10 := by omega
  have h2 : n % 10 < 10 := by omega
  simp [valOfDigits, pad2, List.foldl, toNat_dChar _ h1, toNat_dChar _ h2]
  omega

theorem valOfDigits_pad4 (n : Nat) (h : n < 10000) : valOfDigits (pad4 n) = n := by
  have h1 : n / 1000 < 10 := by omega
  have h2 : n / 100 % 10 < 10 := by omega
  have h3 : n / 10 % 10 < 10 := by omega
  have h4 : n % 10 < 10 := by omega
  simp [valOfDigits, pad4, List.foldl, toNat_dChar _ h1, toNat_dChar _ h2,
    toNat_dChar _ h3, toNat_dChar _ h4]
  omega

theorem pad2_all_isD (n : Nat) (h : n < 100) : (pad2 n).all (isD ·) = true := by
  simp [pad2, isD_dChar _ (show n / 10 < 10 by omega),
    isD_dChar _ (show n % 10 < 10 by omega)]

theorem pad4_all_isD (n : Nat) (h : n < 10000) : (pad4 n).all (isD ·) = true := by
  simp [pad4, isD_dChar _ (show n / 1000 < 10 by omega),
    isD_dChar _ (show n / 100 % 10 < 10 by omega),
    isD_dChar _ (show n / 10 % 10 < 10 by omega),
    isD_dChar _ (show n % 10 < 10 by omega)]

theorem splitC_sep_cons (sep : Char) (xs ys : List Char)
    (h : ∀ x ∈ xs, (x == sep) = false) :
    splitC sep (xs ++ sep :: ys) = xs :: splitC sep ys := by
  induction xs with
  | nil => simp [splitC]
  | cons a t ih =>
    have ha : (a == sep) = false := h a (by simp)
    have ih2 := ih (fun x hx => h x (by simp [hx]))
    simp [splitC, ha, ih2]

theorem splitC_no_sep (sep : Char) (xs : List Char)
    (h : ∀ x ∈ xs, (x == sep) = false) : splitC sep xs = [xs] := by
  induction xs with
  | nil => simp [splitC]
  | cons a t ih =>
    have ha : (a == sep) = false := h a (by simp)
    have ih2 := ih (fun x hx => h x (by simp [hx]))
    simp [splitC, ha, ih2]

theorem daysInMonth_le (y m : Nat) : daysInMonth y m ≤ 31 := by
  unfold daysInMonth
  repeat' split
  all_goals omega

/-- The bounds packaged by `validPDate`. -/
theorem validPDate_bounds (d : PDate) (h : validPDate d = true) :
    1 ≤ d.year ∧ d.year ≤ 9999 ∧ 1 ≤ d.month ∧ d.month ≤ 12 ∧
      1 ≤ d.day ∧ d.day ≤ 31 := by
  have hle := daysInMonth_le d.year d.month
  simp [validPDate, okDate] at h
  omega

theorem pad2_no_dot (n : Nat) (h : n < 100) :
    ∀ x ∈ pad2 n, (x == '.') = false := by
  intro x hx
  rcases (by simpa [pad2] using hx : x = dChar (n / 10) ∨ x = dChar (n % 10)) with
    rfl | rfl
  · exact dChar_beq_dot _ (by omega)
  · exact dChar_beq_dot _ (by omega)

theorem pad4_no_dot (n : Nat) (h : n < 10000) :
    ∀ x ∈ pad4 n, (x == '.') = false := by
  intro x hx
  rcases (by simpa [pad4] using hx :
      x = dChar (n / 1000) ∨ x = dChar (n / 100 % 10) ∨
        x = dChar (n / 10 % 10) ∨ x = dChar (n % 10)) with rfl | rfl | rfl | rfl
  · exact dChar_beq_dot _ (by omega)
  · exact dChar_beq_dot _ (by omega)
  · exact dChar_beq_dot _ (by omega)
  · exact dChar_beq_dot _ (by omega)

theorem splitC_fmtC (d : PDate) (h : validPDate d = true) :
    splitC '.' (fmtC d) = [pad2 d.day, pad2 d.month, pad4 d.year] := by
  obtain ⟨hy1, hy2, hm1, hm2, hd1, hd2⟩ := validPDate_bounds d h
  rw [fmtC, splitC_sep_cons '.' (pad2 d.day) _ (pad2_no_dot d.day (by omega)),
    splitC_sep_cons '.' (pad2 d.month) _ (pad2_no_dot d.month (by omega)),
    splitC_no_sep '.' (pad4 d.year) (pad4_no_dot d.year (by omega))]

theorem fieldD_pad2 (n : Nat) (h1 : 1 ≤ n) (h2 : n ≤ 31) :
    fieldD (pad2 n) = some n := by
  have hall := pad2_all_isD n (by omega)
  have hv := valOfDigits_pad2 n (by omega)
  have hlen : (pad2 n).length = 2 := rfl
  simp [fieldD, hall, hv, hlen, h1, h2]

theorem fieldM_pad2 (n : Nat) (h1 : 1 ≤ n) (h2 : n ≤ 12) :
    fieldM (pad2 n) = some n := by
  have hall := pad2_all_isD n (by omega)
  have hv := valOfDigits_pad2 n (by omega)
  have hlen : (pad2 n).length = 2 := rfl
  simp [fieldM, hall, hv, hlen, h1, h2]

theorem fieldY4_pad4 (n : Nat) (h : n < 10000) : fieldY4 (pad4 n) = some n := by
  have hall := pad4_all_isD n h
  have hv := valOfDigits_pad4 n h
  have hlen : (pad4 n).length = 4 := rfl
  simp [fieldY4, hall, hv, hlen]

theorem parseDMY_fmt (d : PDate) (h : validPDate d = true) :
    parseDMYc '.' false (fmtC d) = some d := by
  obtain ⟨hy1, hy2, hm1, hm2, hd1, hd2⟩ := validPDate_bounds d h
  unfold parseDMYc
  rw [splitC_fmtC d h]
  simp only [fieldD_pad2 d.day hd1 hd2, fieldM_pad2 d.month hm1 hm2,
    fieldY4_pad4 d.year (by omega)]
  have hok : okDate d.year d.month d.day = true := h
  simp [hok]

theorem tryFormatsC_fmt (d : PDate) (h : validPDate d = true) :
    tryFormatsC (fmtC d) = some d := by
  unfold tryFormatsC
  rw [parseDMY_fmt d h]
  rfl

theorem dropWhile_of_head_neg {p : Char → Bool} (cs : List Char)
    (h : ∀ c ∈ cs, p c = false) : cs.dropWhile p = cs := by
  cases cs with
  | nil => rfl
  | cons a t => simp [List.dropWhile, h a (by simp)]

theorem pyStripC_id (cs : List Char) (h : ∀ c ∈ cs, isWS c = false) :
    pyStripC cs = cs := by
  unfold pyStripC
  rw [dropWhile_of_head_neg cs h,
    dropWhile_of_head_neg cs.reverse (fun c hc => h c (by simpa using hc)),
    List.reverse_reverse]

theorem fmtC_not_ws (d : PDate) (h : validPDate d = true) :
    ∀ c ∈ fmtC d, isWS c = false := by
  obtain ⟨hy1, hy2, hm1, hm2, hd1, hd2⟩ := validPDate_bounds d h
  intro c hc
  rcases (by simpa [fmtC, pad2, pad4] using hc :
      c = dChar (d.day / 10) ∨ c = dChar (d.day % 10) ∨ c = '.' ∨
      c = dChar (d.month / 10) ∨ c = dChar (d.month % 10) ∨ c = '.' ∨
      c = dChar (d.year / 1000) ∨ c = dChar (d.year / 100 % 10) ∨
      c = dChar (d.year / 10 % 10) ∨ c = dChar (d.year % 10)) with
    rfl | rfl | rfl | rfl | rfl | rfl | rfl | rfl | rfl | rfl
  · exact isWS_dChar _ (by omega)
  · exact isWS_dChar _ (by omega)
  · decide
  · exact isWS_dChar _ (by omega)
  · exact isWS_dChar _ (by omega)
  · decide
  · exact isWS_dChar _ (by omega)
  · exact isWS_dChar _ (by omega)
  · exact isWS_dChar _ (by omega)
  · exact isWS_dChar _ (by omega)

theorem fmt_ne_empty (d : PDate) : fmtDDMMYYYY d ≠ "" := by
  simp [fmtDDMMYYYY, fmtC, pad2, String.ext_iff]

theorem parse_date_fmt (d : PDate) (h : validPDate d = true) :
    parse_date (.str (fmtDDMMYYYY d)) = some d := by
  show (if fmtDDMMYYYY d = "" then none else tryFormatsC (pyStrip (fmtDDMMYYYY d)).data)
    = some d
  rw [if_neg (fmt_ne_empty d)]
  have hstr : pyStrip (fmtDDMMYYYY d) = fmtDDMMYYYY d := by
    simp [pyStrip, fmtDDMMYYYY, pyStripC_id _ (fmtC_not_ws d h)]
  rw [hstr]
  exact tryFormatsC_fmt d h

theorem dropWhile_of_all_pos {p : Char → Bool} (cs : List Char)
    (h : ∀ c ∈ cs, p c = true) : cs.dropWhile p = [] := by
  induction cs with
  | nil => rfl
  | cons a t ih => simp [List.dropWhile, h a (by simp), ih (fun c hc => h c (by simp [hc]))]

theorem parse_date_blank (s : String) (h : s.data.all (isWS ·) = true) :
    parse_date (.str s) = none := by
  show (if s = "" then none else tryFormatsC (pyStrip s).data) = none
  by_cases hs : s = ""
  · simp [hs]
  · rw [if_neg hs]
    have hall : ∀ c ∈ s.data, isWS c = true := by
      intro c hc
      exact List.all_eq_true.mp h c hc
    have h0 : pyStripC s.data = [] := by
      unfold pyStripC
      rw [dropWhile_of_all_pos s.data hall]
      rfl
    have hd : (pyStrip s).data = [] := by simp [pyStrip, h0]
    rw [hd]
    rfl

/-! ### Claim theorems -/

/-- C1: `compare_dates` returns the empty string ("no data") whenever either
input fails `parse_date`; otherwise it returns "да" exactly when the parsed
contract date strictly precedes the parsed inclusion date and "нет"
otherwise, including equality; with the three concrete examples of the
spec. -/
theorem compare_dates_spec (c i : DateValue) :
    ((parse_date c = none ∨ parse_date i = none) → compare_dates c i = "") ∧
    (∀ dc di, parse_date c = some dc → parse_date i = some di →
      compare_dates c i = if pdLt dc di then "да" else "нет") ∧
    (∀ dc, parse_date c = some dc → parse_date i = some dc →
      compare_dates c i = "нет") ∧
    compare_dates (.str "") (.str "01.01.2020") = "" ∧
    compare_dates (.str "01.01.2019") (.str "01.06.2020") = "да" ∧
    compare_dates (.str "01.06.2021") (.str "01.06.2020") = "нет" := by
  refine ⟨?_, ?_, ?_, by decide, by decide, by decide⟩
  · intro h
    rcases h with h | h
    · cases hpi : parse_date i <;> simp [compare_dates, h, hpi]
    · cases hpc : parse_date c <;> simp [compare_dates, h, hpc]
  · intro dc di h1 h2
    unfold compare_dates
    rw [h1, h2]
  · intro dc h1 h2
    unfold compare_dates
    rw [h1, h2]
    have hf : pdLt dc dc = false := by unfold pdLt; simp
    simp [hf]

/-- Witness for C1 at concrete inputs. -/
theorem compare_dates_spec_w :
    compare_dates (.str "xx") (.str "01.01.2020") = "" ∧
    compare_dates (.str "02.03.2004") (.str "05.06.2007") = "да" ∧
    compare_dates (.str "05.05.2005") (.str "05.05.2005") = "нет" :=
  ⟨(compare_dates_spec _ _).1 (Or.inl (by decide)),
   ((compare_dates_spec _ _).2.1 ⟨2004, 3, 2⟩ ⟨2007, 6, 5⟩ (by decide)
     (by decide)).trans (by decide),
   (compare_dates_spec _ _).2.2.1 ⟨2005, 5, 5⟩ (by decide) (by decide)⟩

/-- C8: a valid calendar date formatted as dd.mm.yyyy parses back to the
same date (the four-digit-year format wins before any two-digit variant is
attempted), and empty, null or blank input yields the unparseable outcome
rather than an error. -/
theorem parse_date_ordered_roundtrip (d : PDate) (h : validPDate d = true) :
    parse_date (.str (fmtDDMMYYYY d)) = some d ∧
    parse_date (.str "") = none ∧
    parse_date .na = none ∧
    (∀ s : String, s.data.all (isWS ·) = true → parse_date (.str s) = none) :=
  ⟨parse_date_fmt d h, rfl, rfl, fun s hs => parse_date_blank s hs⟩

/-- Witness for C8 at the date 15.03.2021. -/
theorem parse_date_ordered_roundtrip_w :
    validPDate ⟨2021, 3, 15⟩ = true ∧
    parse_date (.str (fmtDDMMYYYY ⟨2021, 3, 15⟩)) = some ⟨2021, 3, 15⟩ :=
  ⟨by decide, (parse_date_ordered_roundtrip ⟨2021, 3, 15⟩ (by decide)).1⟩

/-- C10: `parse_results` is a total function whose result, for every
document, is exactly a nine-field record (found, organization_name,
category, inclusion_date, exclusion_date, region, inn, ogrn, message) with
`found` boolean and every other field a string. -/
theorem parse_results_total_shape (root : List Node) :
    ∃ f n c i e r g o m, parse_results root = mkR f n c i e r g o m := by
  unfold parse_results
  split
  · exact ⟨_, _, _, _, _, _, _, _, _, rfl⟩
  · split
    · exact ⟨_, _, _, _, _, _, _, _, _, rfl⟩
    · split
      · exact ⟨_, _, _, _, _, _, _, _, _, rfl⟩
      · exact shaped_exclusion_recovery _ _ (shaped_keyword_stage _ _
          (shaped_selector_stage _ _ (shaped_detail_stage _ _
            (shaped_table_stage _ _ shaped_initR))))

/-- Spec-side shape for the amended C2: after stripping, exactly 10 or 12
decimal digits, optionally followed by one trailing newline character. -/
def acceptedShape (t : String) : Bool :=
  (t.data.all (isD ·) && (t.data.length == 10 || t.data.length == 12)) ||
  (t.data.getLast? == some '\n' && t.data.dropLast.all (isD ·) &&
    (t.data.dropLast.length == 10 || t.data.dropLast.length == 12))

theorem innRe_eq_acceptedShape (t : String) : innRe t = acceptedShape t := by
  unfold innRe acceptedShape digitsLen
  cases h1 : t.data.all (isD ·) <;>
    cases h2 : t.data.dropLast.all (isD ·) <;>
    cases h3 : t.data.getLast? == some '\n' <;>
    simp [Bool.or_assoc, Bool.and_or_distrib_left]

/-- C2 (amended): `validate_inn` rejects `None`, and accepts a string iff
after removing spaces and hyphens the remainder is exactly 10 or 12 decimal
digits optionally followed by one trailing newline, returning the stripped
string itself; with the spec's example. -/
theorem validate_inn_amended (s : String) :
    validate_inn none = none ∧
    validate_inn (some s) =
      (if acceptedShape (stripSpHy s) then some (stripSpHy s) else none) ∧
    validate_inn (some " 123-456-789 0") = some "1234567890" := by
  refine ⟨rfl, ?_, by decide⟩
  by_cases hs : s = ""
  · subst hs
    decide
  · show (if s = "" then none
      else if innRe (stripSpHy s) then some (stripSpHy s) else none) = _
    rw [if_neg hs, innRe_eq_acceptedShape]

/-- Counterexample to C2 as stated: `"1234567890\n"` is accepted unchanged
by `validate_inn` although it is not an all-digit string of length 10 or
12 (Python `$` matches before a trailing newline). -/
theorem validate_inn_newline_cex :
    validate_inn (some "1234567890\n") = some "1234567890\n" ∧
    stripSpHy "1234567890\n" = "1234567890\n" ∧
    ("1234567890\n").data.all (isD ·) = false ∧
    ("1234567890\n").data.length = 11 := by decide

theorem process_single_inn_cases (iv : Option String) (oc : Outcome) :
    process_single_inn iv oc = defaultProc ∨
      (process_single_inn iv oc).smsp = "да" := by
  unfold process_single_inn
  repeat' split
  all_goals first | exact Or.inl rfl | exact Or.inr rfl

/-- C3 (amended): the exclusion-date output cell is populated only when the
found flag is "да" and the extracted exclusion text is non-blank and not a
known placeholder, in which case it equals that text; otherwise it is the
empty string. The extracted category is not consulted. -/
theorem exclusion_cell_policy (r : RowIn) (oc : Outcome) :
    (processRow r oc).exclusion = "" ∨
    ((processRow r oc).smsp = "да" ∧
      (processRow r oc).exclusion = (process_single_inn r.inn oc).exclusion_date ∧
      exclusionKeep ((process_single_inn r.inn oc).exclusion_date) = true) := by
  unfold processRow
  cases hk : exclusionKeep ((process_single_inn r.inn oc).exclusion_date) with
  | false =>
    left
    simp [rowOutput, hk]
  | true =>
    rcases process_single_inn_cases r.inn oc with hp | hp
    · rw [hp] at hk
      exact absurd hk (by decide)
    · right
      refine ⟨?_, ?_, rfl⟩
      · simpa [rowOutput] using hp
      · simp [rowOutput, hk]

/-- Counterexample to C3 as stated: a lookup whose extracted category is
"Малое предприятие" (not the excluded category) still populates the
exclusion-date output cell with the extracted fifth-column date. -/
theorem exclusion_cell_cex :
    getS (parse_results c3doc) "category" = "Малое предприятие" ∧
    getFoundD (parse_results c3doc) = true ∧
    (processRow ⟨some "1234567890", .na⟩
      (.ok (some (parse_results c3doc)))).exclusion = "05.05.2021" ∧
    ¬ ("Малое предприятие" = "Не является субъектом МСП") := by decide

/-- C4 (amended): when the FIRST alert/warning-styled block contains the
negative wording — or, that check failing, the FIRST "dear user" text
node's surrounding block does — `parse_results` returns found=false with
that block's text as the message, short-circuiting all later strategies
regardless of any table markup present. -/
theorem negative_precedence (root : List Node) (w u : String) :
    (warning_check root = some w →
      parse_results root = mkR false "" "" "" "" "" "" "" w) ∧
    (warning_check root = none → user_check root = some u →
      parse_results root = mkR false "" "" "" "" "" "" "" u) := by
  constructor
  · intro hw
    unfold parse_results
    rw [hw]
    rfl
  · intro hw hu
    unfold parse_results
    rw [hw, hu]
    rfl

/-- Witness for C4 on two documents that both also contain a data table. -/
theorem negative_precedence_w :
    warning_check c4wdoc = some "По данному запросу ничего не найдено" ∧
    parse_results c4wdoc =
      mkR false "" "" "" "" "" "" "" "По данному запросу ничего не найдено" ∧
    warning_check udoc = none ∧
    user_check udoc =
      some "Уважаемый пользователь! По вашему запросу не найдено сведений" ∧
    parse_results udoc =
      mkR false "" "" "" "" "" "" ""
        "Уважаемый пользователь! По вашему запросу не найдено сведений" :=
  ⟨by decide, (negative_precedence c4wdoc _ "").1 (by decide), by decide, by decide,
   (negative_precedence udoc "" _).2 (by decide) (by decide)⟩

/-- Counterexample to C4 as stated: `c4doc` contains an alert-styled block
with the negative wording, yet the extractor returns found=true with an
empty message, because only the FIRST alert block (which lacks the wording)
is inspected. -/
theorem negative_masked_cex :
    clsAlert "alert-box" = true ∧
    negWordsIn (pyLower (getTextStrip
      (Node.elem "div" "alert-box" ""
        [Node.text "По вашему запросу не найдено сведений"]))) = true ∧
    getFoundD (parse_results c4doc) = true ∧
    getS (parse_results c4doc) "message" = "" := by decide

/-- C9 (amended): when neither negative banner triggers and the FIRST text
node matching the results-counter pattern has counter value 0,
`parse_results` returns found=false with the fixed message "Записи не
найдены", before table extraction and all later strategies. -/
theorem counter_zero_precedence (root : List Node)
    (h1 : warning_check root = none) (h2 : user_check root = none)
    (h3 : counter_zero root = true) :
    parse_results root = mkR false "" "" "" "" "" "" "" "Записи не найдены" := by
  unfold parse_results
  rw [h1, h2]
  simp only [h3, if_true]
  rfl

/-- Witness for C9 on a document that also contains a data table. -/
theorem counter_zero_precedence_w :
    warning_check c9wdoc = none ∧ user_check c9wdoc = none ∧
    counter_zero c9wdoc = true ∧
    parse_results c9wdoc = mkR false "" "" "" "" "" "" "" "Записи не найдены" :=
  ⟨by decide, by decide, by decide,
   counter_zero_precedence c9wdoc (by decide) (by decide) (by decide)⟩

/-- Counterexample to C9 as stated: `c9doc` contains the counter text
"Найдено записей: 0", yet the extractor returns found=true with an empty
message, because only the FIRST counter-bearing text node (which reads 5)
is inspected. -/
theorem counter_masked_cex :
    containsSub (getTextRawL c9doc) "Найдено записей: 0" = true ∧
    getFoundD (parse_results c9doc) = true ∧
    getS (parse_results c9doc) "message" = "" := by decide

/-- C5 (amended): the claim as stated holds for the alternate extractors
(`parse_search_results` of `rmsp_no_chrome.py` / `rmsp_playwright.py`):
with no negative banner and no table match, the first matched category
keyword sets found=true and category, and the first dd.mm.yyyy-shaped
substring of the page text becomes the inclusion date. The main extractor
(`rmsp_parser.parse_results`) additionally requires the literal
`RSMP_CATEGORY` marker, matches case-sensitively, and leaves the inclusion
date empty. -/
theorem keyword_fallback (root : List Node) (cat : String) :
    (negNC root = false → tableNC root = none →
      kwNC (pyLower (getTextRawL root)) = some cat →
      parse_search_results root =
        { found := true, category := cat,
          inclusion_date := (firstDate (getTextRawL root)).getD "-",
          message := "" }) ∧
    (warning_check root = none → user_check root = none →
      counter_zero root = false → tableMain root = none → selMain root = none →
      containsSub (getTextRawL root) "RSMP_CATEGORY" = true →
      cat4 (getTextRawL root) = some cat →
      (cat == "Не является субъектом МСП") = false →
      parse_results root =
        mkR true "Организация найдена (требуется уточнение названия)"
          cat "" "" "" "" "" "") := by
  constructor
  · intro h1 h2 h3
    unfold parse_search_results
    rw [h1, if_neg Bool.false_ne_true, h2, h3]
    cases hfd : firstDate (getTextRawL root) <;> rfl
  · intro g1 g2 g3 g4 g5 g6 g7 g8
    have htab : table_stage root initR = initR := by
      unfold table_stage; rw [g4]
    have hdet : detail_stage root initR = initR := rfl
    have hsel : selector_stage root initR = initR := by
      unfold selector_stage; rw [g5]; rfl
    have hkw : keyword_stage root initR =
        mkR true "Организация найдена (требуется уточнение названия)"
          cat "" "" "" "" "" "" := by
      unfold keyword_stage
      dsimp only
      rw [g6, g7]
      rfl
    unfold parse_results
    rw [g1, g2, if_neg (by rw [g3]; exact Bool.false_ne_true),
      htab, hdet, hsel, hkw]
    unfold exclusion_recovery
    have hcat : getS (mkR true "Организация найдена (требуется уточнение названия)"
        cat "" "" "" "" "" "") "category" = cat := rfl
    rw [hcat, g8]
    simp

/-- Witness for C5 on a keyword-only document (alternate extractor) and on
the same document with the marker (main extractor). -/
theorem keyword_fallback_w :
    parse_search_results c5doc =
      { found := true, category := "Малое предприятие",
        inclusion_date := "05.03.2021", message := "" } ∧
    parse_results c5mdoc =
      mkR true "Организация найдена (требуется уточнение названия)"
        "Малое предприятие" "" "" "" "" "" "" :=
  ⟨((keyword_fallback c5doc "Малое предприятие").1 (by decide) (by decide)
      (by decide)).trans (by decide),
   (keyword_fallback c5mdoc "Малое предприятие").2 (by decide) (by decide)
     (by decide) (by decide) (by decide) (by decide) (by decide) (by decide)⟩

/-- Counterexample to C5 as stated: for the main extractor, a document whose
only signal is the keyword "Малое предприятие" plus a date-shaped substring
yields found=false and an empty category (no `RSMP_CATEGORY` marker). -/
theorem keyword_no_marker_cex :
    containsSub (getTextRawL c5doc) "Малое предприятие" = true ∧
    firstDate (getTextRawL c5doc) = some "05.03.2021" ∧
    getFoundD (parse_results c5doc) = false ∧
    getS (parse_results c5doc) "category" = "" := by decide

/-- C6 (amended): an identifier rejected by `validate_inn` never reaches
the browser: the lookup returns its rejection result with an empty network
event trace, before any driver setup, navigation or query submission — for
the Selenium entry point and the Playwright one, whatever the browser
oracle would do. -/
theorem validation_gate (inn : String)
    (oracle : String → Option RDict × List NetEvent)
    (oracle2 : String → SRes × List NetEvent)
    (h : validate_inn (some inn) = none) :
    search_by_inn_tr oracle (some inn) = (none, []) ∧
    search_rmsp_playwright_tr oracle2 inn = (invalidRes inn, []) := by
  constructor
  · unfold search_by_inn_tr
    rw [h]
  · unfold search_rmsp_playwright_tr
    rw [h]

/-- Witness for C6 at a malformed identifier. -/
theorem validation_gate_w :
    validate_inn (some "12AB") = none ∧
    search_by_inn_tr (fun _ => (none, [NetEvent.chromeConnect])) (some "12AB")
      = (none, []) ∧
    search_rmsp_playwright_tr (fun _ => (invalidRes "", [NetEvent.navigate])) "12AB"
      = (invalidRes "12AB", []) :=
  ⟨by decide,
   (validation_gate "12AB" (fun _ => (none, [NetEvent.chromeConnect]))
     (fun _ => (invalidRes "", [NetEvent.navigate])) (by decide)).1,
   (validation_gate "12AB" (fun _ => (none, [NetEvent.chromeConnect]))
     (fun _ => (invalidRes "", [NetEvent.navigate])) (by decide)).2⟩

/-- Counterexample to C6 as stated: `"1234567890\n"` is not 10 or 12 digits
after stripping spaces and hyphens, yet it passes `validate_inn` and is
submitted to the browser oracle (non-empty event trace containing the
query). -/
theorem validation_gate_cex :
    ("1234567890\n").data.all (isD ·) = false ∧
    search_by_inn_tr
      (fun v => (none, [NetEvent.chromeConnect, NetEvent.navigate,
        NetEvent.submitQuery v]))
      (some "1234567890\n")
      = (none, [NetEvent.chromeConnect, NetEvent.navigate,
          NetEvent.submitQuery "1234567890\n"]) := by decide

/-- C7: the batch loop processes every row; a row whose lookup raises, or
returns `None`, or returns a not-found record, produces exactly the default
"not found" output row; and the output of any other row depends only on
that row's own input and outcome (one row's failure never alters another
row). -/
theorem row_isolation (rows : List RowIn) (o o2 : Nat → Outcome) (i : Nat) :
    (processRows rows o).length = rows.length ∧
    ((o i = .exn ∨ o i = .ok none) →
      (processRows rows o)[i]? = (rows[i]?).map fun _ => defaultRowOut) ∧
    (∀ res, o i = .ok (some res) → getFoundD res = false →
      (processRows rows o)[i]? = (rows[i]?).map fun _ => defaultRowOut) ∧
    ((∀ j, j ≠ i → o j = o2 j) →
      ∀ j, j ≠ i → (processRows rows o)[j]? = (processRows rows o2)[j]?) := by
  have hget : ∀ (o3 : Nat → Outcome) (k : Nat),
      (processRows rows o3)[k]? = (rows[k]?).map fun r => processRow r (o3 k) := by
    intro o3 k
    unfold processRows
    rw [List.getElem?_map, List.getElem?_enum]
    cases rows[k]? <;> rfl
  refine ⟨?_, ?_, ?_, ?_⟩
  · unfold processRows
    rw [List.length_map, List.enum_length]
  · intro h
    rw [hget]
    have hpr : ∀ r : RowIn, processRow r (o i) = defaultRowOut := by
      intro r
      have hps : process_single_inn r.inn (o i) = defaultProc := by
        unfold process_single_inn
        rcases h with h | h <;> rw [h] <;> simp
      unfold processRow
      rw [hps]
      rfl
    cases rows[i]? with
    | none => rfl
    | some r => simp [hpr r]
  · intro res h hf
    rw [hget]
    have hpr : ∀ r : RowIn, processRow r (o i) = defaultRowOut := by
      intro r
      have hps : process_single_inn r.inn (o i) = defaultProc := by
        unfold process_single_inn
        rw [h]
        dsimp only
        rw [hf, Bool.and_false, if_neg Bool.false_ne_true, ite_self]
      unfold processRow
      rw [hps]
      rfl
    cases rows[i]? with
    | none => rfl
    | some r => simp [hpr r]
  · intro h j hj
    rw [hget, hget, h j hj]

/-- Witness for C7 on a two-row batch whose every lookup raises. -/
theorem row_isolation_w :
    (processRows [⟨some "1234567890", .na⟩, ⟨none, .str "01.01.2020"⟩]
      (fun _ => .exn)).length = 2 ∧
    (processRows [⟨some "1234567890", .na⟩, ⟨none, .str "01.01.2020"⟩]
      (fun _ => .exn))[0]? = some defaultRowOut ∧
    (processRows [⟨some "1234567890", .na⟩, ⟨none, .str "01.01.2020"⟩]
      (fun _ => .exn))[1]?
      = (processRows [⟨some "1234567890", .na⟩, ⟨none, .str "01.01.2020"⟩]
          (fun _ => .exn))[1]? :=
  ⟨(row_isolation [⟨some "1234567890", .na⟩, ⟨none, .str "01.01.2020"⟩]
      (fun _ => .exn) (fun _ => .exn) 0).1.trans (by decide),
   ((row_isolation [⟨some "1234567890", .na⟩, ⟨none, .str "01.01.2020"⟩]
      (fun _ => .exn) (fun _ => .exn) 0).2.1 (Or.inl rfl)).trans (by decide),
   (row_isolation [⟨some "1234567890", .na⟩, ⟨none, .str "01.01.2020"⟩]
      (fun _ => .exn) (fun _ => .exn) 0).2.2.2 (fun _ _ => rfl) 1 (by decide)⟩

end RMSP
